import Mathlib

/-!
Verification of `util/pull/pull.go` (lazy image pull front-end).

The Go code is shallowly embedded: the `Puller` struct becomes `PullerState`,
its external collaborators (content store, remote resolver, containerd's
`images.Dispatch`, manifest/rootfs readers) become fields of an `Env` record
of explicit result-returning functions, and each method becomes a Lean
function threading `PullerState` explicitly.  Go maps are modelled as
association lists with in-place key replacement; Go `error` values are
modelled as `Except String`.
-/

set_option autoImplicit false

namespace Pull

/-- Association-list update modelling Go's `m[k] = v`: replace the value of
an existing key in place, otherwise append the new binding. -/
def insertKV {α : Type} (m : List (String × α)) (k : String) (v : α) : List (String × α) :=
  match m with
  | [] => [(k, v)]
  | (k', v') :: rest => if k' = k then (k, v) :: rest else (k', v') :: insertKV rest k v

/-- Association-list lookup modelling Go's `m[k]`. -/
def lookupKV {α : Type} (m : List (String × α)) (k : String) : Option α :=
  match m with
  | [] => none
  | (k', v') :: rest => if k' = k then some v' else lookupKV rest k

theorem lookupKV_insertKV {α : Type} (m : List (String × α)) (k : String) (v : α) :
    lookupKV (insertKV m k v) k = some v := by
  induction m with
  | nil => simp [insertKV, lookupKV]
  | cons hd tl ih =>
    obtain ⟨k', v'⟩ := hd
    by_cases h : k' = k <;> simp [insertKV, lookupKV, h, ih]

theorem insertKV_insertKV {α : Type} (m : List (String × α)) (k : String) (v : α) :
    insertKV (insertKV m k v) k v = insertKV m k v := by
  induction m with
  | nil => simp [insertKV]
  | cons hd tl ih =>
    obtain ⟨k', v'⟩ := hd
    by_cases h : k' = k <;> simp [insertKV, h, ih]

/-- `ocispec.Descriptor`: digest, media type, size and the (nilable)
`Annotations` map.  `annotations = none` models a nil Go map. -/
structure Descriptor where
  digest : String
  mediaType : String
  size : Int
  annotations : Option (List (String × String))
deriving DecidableEq, Repr

/-- The zero `ocispec.Descriptor{}` value. -/
def Descriptor.empty : Descriptor :=
  { digest := "", mediaType := "", size := 0, annotations := none }

instance : Inhabited Descriptor := ⟨Descriptor.empty⟩

/-- `ocispec.Manifest`, reduced to the fields `getLayers` reads. -/
structure Manifest where
  config : Descriptor
  layers : List Descriptor
deriving DecidableEq, Repr

/- Media-type constants from `containerd/images` and `ocispec`. -/

def MediaTypeImageLayer : String := "application/vnd.oci.image.layer.v1.tar"

def MediaTypeImageLayerGzip : String := "application/vnd.oci.image.layer.v1.tar+gzip"

def MediaTypeDockerSchema2Layer : String := "application/vnd.docker.image.rootfs.diff.tar"

def MediaTypeDockerSchema2LayerGzip : String := "application/vnd.docker.image.rootfs.diff.tar.gzip"

def MediaTypeDockerSchema2LayerForeign : String := "application/vnd.docker.image.rootfs.foreign.diff.tar"

def MediaTypeDockerSchema2LayerForeignGzip : String := "application/vnd.docker.image.rootfs.foreign.diff.tar.gzip"

def MediaTypeDockerSchema2Config : String := "application/vnd.docker.container.image.v1+json"

def MediaTypeImageConfig : String := "application/vnd.oci.image.config.v1+json"

def MediaTypeDockerSchema1Manifest : String := "application/vnd.docker.distribution.manifest.v1+prettyjws"

/-- The media types matched by the `switch` in `filterLayerBlobs`. -/
def isLayerType (mt : String) : Bool :=
  mt = MediaTypeImageLayer || mt = MediaTypeDockerSchema2Layer ||
  mt = MediaTypeImageLayerGzip || mt = MediaTypeDockerSchema2LayerGzip ||
  mt = MediaTypeDockerSchema2LayerForeign || mt = MediaTypeDockerSchema2LayerForeignGzip

/-- The config media types matched by the `switch` in `PullManifests`. -/
def isConfigType (mt : String) : Bool :=
  mt = MediaTypeDockerSchema2Config || mt = MediaTypeImageConfig

/-- Go `%+v` rendering of a `[]digest.Digest` slice. -/
def goFormatStrings (xs : List String) : String :=
  "[" ++ String.intercalate " " xs ++ "]"

/-- Go `%+v` rendering of one `ocispec.Descriptor` struct. -/
def goFormatDescriptor (d : Descriptor) : String :=
  "\x7bMediaType:" ++ d.mediaType ++ " Digest:" ++ d.digest ++
    " Size:" ++ toString d.size ++ "\x7d"

/-- Go `%+v` rendering of a `[]ocispec.Descriptor` slice. -/
def goFormatDescriptors (ds : List Descriptor) : String :=
  "[" ++ String.intercalate " " (ds.map goFormatDescriptor) ++ "]"

/-- The message built by `errors.Errorf("mismatched image rootfs and manifest
layers %+v %+v", diffIDs, manifest.Layers)`. -/
def mismatchMsg (diffIDs : List String) (layers : List Descriptor) : String :=
  "mismatched image rootfs and manifest layers " ++
    goFormatStrings diffIDs ++ " " ++ goFormatDescriptors layers

/-- The annotation key `"containerd.io/uncompressed"`. -/
def uncompressedKey : String := "containerd.io/uncompressed"

/-- Body of the per-index loop in `getLayers`: copy the manifest layer
descriptor, create its annotations map if nil, and set the uncompressed
diff-ID annotation. -/
def setUncompressed (d : Descriptor) (diffID : String) : Descriptor :=
  let anns := match d.annotations with
    | none => []
    | some m => m
  { d with annotations := some (insertKV anns uncompressedKey diffID) }

/-- The external collaborators of `Puller`, as explicit result functions:
`Src` accessors, the content store, the remote resolver/fetcher, containerd's
dispatch walk (`images.Dispatch` with the handler chain, reported as the
final metadata map contents in iteration order), the schema1 converter, and
the manifest / rootfs readers used by `getLayers`.  Reader and fetcher
handles are opaque naturals. -/
structure Env where
  srcDigest : String
  srcString : String
  storeInfo : String → Except String Int
  storeReaderAt : Descriptor → Except String Nat
  detectMediaType : Nat → Except String String
  resolverResolve : String → Except String (String × Descriptor)
  fetcher : String → Except String Nat
  fetcherReaderAt : Nat → Descriptor → Except String Nat
  dispatch : Descriptor → Except String (List (String × Descriptor))
  schema1Dispatch : Except String Unit
  schema1Convert : Except String Descriptor
  manifestOf : Descriptor → Except String Manifest
  rootFSOf : Descriptor → Except String (List String)
  fetchBlob : Descriptor → Except String Unit
  children : Descriptor → Except String (List Descriptor)

/-- `getLayers`: load the manifest and the rootfs diff-ID history, fail on a
length mismatch with a message carrying both sequences, otherwise annotate
each manifest layer with its diff ID, order preserved. -/
def getLayers (env : Env) (desc : Descriptor) : Except String (List Descriptor) :=
  match env.manifestOf desc with
  | .error e => .error e
  | .ok manifest =>
    match env.rootFSOf desc with
    | .error e => .error ("failed to resolve rootfs: " ++ e)
    | .ok diffIDs =>
      if diffIDs.length ≠ manifest.layers.length then
        .error (mismatchMsg diffIDs manifest.layers)
      else
        .ok (List.zipWith setUncompressed manifest.layers diffIDs)

theorem zipWith_getD {α β γ : Type} (f : α → β → γ) (xs : List α) (ys : List β)
    (i : Nat) (da : α) (db : β) (dc : γ) (hx : i < xs.length) (hy : i < ys.length) :
    (List.zipWith f xs ys).getD i dc = f (xs.getD i da) (ys.getD i db) := by
  induction xs generalizing ys i with
  | nil => simp at hx
  | cons x xs ih =>
    cases ys with
    | nil => simp at hy
    | cons y ys =>
      cases i with
      | zero => simp [List.getD]
      | succ n =>
        simp only [List.zipWith, List.getD_cons_succ]
        exact ih ys n (Nat.lt_of_succ_lt_succ hx) (Nat.lt_of_succ_lt_succ hy)

/-- The mutable fields of the `Puller` struct: the `sync.Once` guard becomes
a boolean, the rest are the memoized fields written by `resolve` and
`PullManifests`. -/
structure PullerState where
  resolveOnceDone : Bool
  resolveErr : Option String
  desc : Descriptor
  configDesc : Descriptor
  ref : String
  layers : List Descriptor
  nonlayers : List Descriptor
deriving DecidableEq, Repr

/-- A freshly constructed `Puller` (zero values). -/
def pullerInit : PullerState :=
  { resolveOnceDone := false, resolveErr := none, desc := Descriptor.empty,
    configDesc := Descriptor.empty, ref := "", layers := [], nonlayers := [] }

/-- `tryLocalResolve`: require a digest on the source reference, look up its
size in the store, set `p.ref`, open a store reader and sniff the manifest
media type; on success store the completed descriptor in `p.desc`.  The
returned `Option String` is the Go error return. -/
def tryLocalResolve (env : Env) (s : PullerState) : PullerState × Option String :=
  let dg := env.srcDigest
  if dg = "" then (s, some "empty digest")
  else
    match env.storeInfo dg with
    | .error e => (s, some e)
    | .ok sz =>
      let s1 := { s with ref := env.srcString }
      match env.storeReaderAt { digest := dg, mediaType := "", size := sz, annotations := none } with
      | .error e => (s1, some e)
      | .ok ra =>
        match env.detectMediaType ra with
        | .error e => (s1, some e)
        | .ok mt =>
          ({ s1 with desc := { digest := dg, mediaType := mt, size := sz, annotations := none } }, none)

/-- `resolve`: inside the `sync.Once` body, try the local fast path; on any
local failure fall through to the remote resolver, memoizing either its
descriptor and ref or its error.  Once the guard has fired, later calls
return the memoized `resolveErr` untouched. -/
def resolve (env : Env) (s : PullerState) : PullerState × Option String :=
  if s.resolveOnceDone then (s, s.resolveErr)
  else
    let r := tryLocalResolve env s
    match r.2 with
    | none =>
      let s2 := { r.1 with resolveOnceDone := true }
      (s2, s2.resolveErr)
    | some _ =>
      match env.resolverResolve env.srcString with
      | .error e =>
        let s2 := { r.1 with resolveOnceDone := true, resolveErr := some e }
        (s2, s2.resolveErr)
      | .ok rd =>
        let s2 := { r.1 with resolveOnceDone := true, desc := rd.2, ref := rd.1 }
        (s2, s2.resolveErr)

/-- Result of one handler invocation: either a fatal error, the skip signal
`images.ErrSkipDesc`, or success with a (possibly empty) child list. -/
inductive HandlerSignal where
  | skipDesc
  | failure (msg : String)
deriving DecidableEq, Repr

/-- Handler state threaded through the walk: the shared metadata map and the
log of blobs fetched into the store. -/
structure WalkState where
  metadata : List (String × Descriptor)
  fetched : List Descriptor
deriving DecidableEq, Repr

/-- One `images.Handler`, with the store/metadata effects made explicit. -/
def Handler : Type :=
  WalkState → Descriptor → WalkState × Except HandlerSignal (List Descriptor)

/-- `filterLayerBlobs`: skip recognized layer media types; otherwise record
the descriptor under its digest in the shared metadata map and continue. -/
def filterLayerBlobs (st : WalkState) (d : Descriptor) :
    WalkState × Except HandlerSignal (List Descriptor) :=
  if isLayerType d.mediaType then (st, .error .skipDesc)
  else ({ st with metadata := insertKV st.metadata d.digest d }, .ok [])

/-- `remotes.FetchHandler`: fetch the blob into the store (recorded in the
fetch log); it never signals skip. -/
def fetchHandler (env : Env) : Handler := fun st d =>
  match env.fetchBlob d with
  | .error e => (st, .error (.failure e))
  | .ok _ => ({ st with fetched := st.fetched ++ [d] }, .ok [])

/-- The platform-filtered `images.ChildrenHandler`: report the node's
children; it never signals skip. -/
def childrenHandler (env : Env) : Handler := fun st d =>
  match env.children d with
  | .error e => (st, .error (.failure e))
  | .ok ch => (st, .ok ch)

/-- `docker.AppendDistributionSourceLabel`: purely additive labelling,
modelled as a successful no-op with no children. -/
def dslHandler : Handler := fun st _ => (st, .ok [])

/-- `images.Handlers`: run the handlers in order, concatenating child lists;
the first error (skip included) aborts the remaining handlers and becomes
the combined result. -/
def handlersSeq (hs : List Handler) (st : WalkState) (d : Descriptor) :
    WalkState × Except HandlerSignal (List Descriptor) :=
  match hs with
  | [] => (st, .ok [])
  | h :: rest =>
    match h st d with
    | (st', .error e) => (st', .error e)
    | (st', .ok ch) =>
      match handlersSeq rest st' d with
      | (st'', .error e) => (st'', .error e)
      | (st'', .ok ch') => (st'', .ok (ch ++ ch'))

/-- The normal-path handler chain assembled in `PullManifests`:
`filterLayerBlobs`, fetch, platform-filtered children, distribution-source
label. -/
def normalHandlers (env : Env) : Handler :=
  handlersSeq [filterLayerBlobs, fetchHandler env, childrenHandler env, dslHandler]

/-- The `for _, desc := range metadata` loop of `PullManifests`: append every
metadata descriptor to `p.nonlayers` and select `p.configDesc` by config
media type. -/
def collectMetadata (s : PullerState) (md : List (String × Descriptor)) : PullerState :=
  match md with
  | [] => s
  | kv :: rest =>
    let s1 := { s with nonlayers := s.nonlayers ++ [kv.2] }
    collectMetadata (if isConfigType kv.2.mediaType then { s1 with configDesc := kv.2 } else s1) rest

/-- The `PulledManifests` result struct; the `Remote` provider field is the
puller itself and is omitted. -/
structure PulledManifests where
  ref : String
  mainManifestDesc : Descriptor
  configDesc : Descriptor
  nonlayers : List Descriptor
  remoteDescriptors : List Descriptor
deriving DecidableEq, Repr

/-- The walk stage of `PullManifests`: branch on the schema1 media type
(eager convert plus metadata-only second walk over the converted root,
which rewrites `p.desc`) or run the normal dispatch walk; either way the
outcome is the collected metadata map contents. -/
def dispatchWalk (env : Env) (s1 : PullerState) :
    PullerState × Except String (List (String × Descriptor)) :=
  if s1.desc.mediaType = MediaTypeDockerSchema1Manifest then
    match env.schema1Dispatch with
    | .error e => (s1, .error e)
    | .ok _ =>
      match env.schema1Convert with
      | .error e => (s1, .error e)
      | .ok newDesc =>
        let s1' := { s1 with desc := newDesc }
        match env.dispatch newDesc with
        | .error e => (s1', .error e)
        | .ok md => (s1', .ok md)
  else
    match env.dispatch s1.desc with
    | .error e => (s1, .error e)
    | .ok md => (s1, .ok md)

/-- `PullManifests`: resolve, obtain a fetcher, run the walk
(`dispatchWalk`), collect the metadata map into `nonlayers`/`configDesc`,
reconcile layers via `getLayers` (on failure `p.layers` is assigned the nil
result), and assemble the `PulledManifests` value. -/
def PullManifests (env : Env) (s : PullerState) :
    PullerState × Except String PulledManifests :=
  match resolve env s with
  | (s1, some e) => (s1, .error e)
  | (s1, none) =>
    match env.fetcher s1.ref with
    | .error e => (s1, .error e)
    | .ok _ =>
      match dispatchWalk env s1 with
      | (s2, .error e) => (s2, .error e)
      | (s2, .ok md) =>
        let s3 := collectMetadata s2 md
        match getLayers env s3.desc with
        | .error e => ({ s3 with layers := [] }, .error e)
        | .ok ls =>
          let s4 := { s3 with layers := ls }
          (s4, .ok { ref := s4.ref, mainManifestDesc := s4.desc,
                     configDesc := s4.configDesc, nonlayers := s4.nonlayers,
                     remoteDescriptors := ls })

/-- `Puller.ReaderAt`: resolve, obtain a fetcher for the memoized ref, and
serve reads through `contentutil.FromFetcher(fetcher).ReaderAt`. -/
def ReaderAt (env : Env) (s : PullerState) (d : Descriptor) :
    PullerState × Except String Nat :=
  match resolve env s with
  | (s1, some e) => (s1, .error e)
  | (s1, none) =>
    match env.fetcher s1.ref with
    | .error e => (s1, .error e)
    | .ok f => (s1, env.fetcherReaderAt f d)

/- Concrete fixtures used by witnesses and counterexamples. -/

/-- An environment whose every external call fails: a cold store and a dead
resolver. -/
def envBase : Env :=
  { srcDigest := "", srcString := "", storeInfo := fun _ => .error "unset",
    storeReaderAt := fun _ => .error "unset", detectMediaType := fun _ => .error "unset",
    resolverResolve := fun _ => .error "unset", fetcher := fun _ => .error "unset",
    fetcherReaderAt := fun _ _ => .error "unset", dispatch := fun _ => .error "unset",
    schema1Dispatch := .error "unset", schema1Convert := .error "unset",
    manifestOf := fun _ => .error "unset", rootFSOf := fun _ => .error "unset",
    fetchBlob := fun _ => .error "unset", children := fun _ => .error "unset" }

def layerDescW : Descriptor :=
  { digest := "sha256:l1", mediaType := MediaTypeImageLayerGzip, size := 10, annotations := none }

def configDescW : Descriptor :=
  { digest := "sha256:c1", mediaType := MediaTypeImageConfig, size := 5, annotations := none }

def rootDescW : Descriptor :=
  { digest := "sha256:m1", mediaType := "application/vnd.oci.image.manifest.v1+json",
    size := 7, annotations := none }

def manifestW : Manifest := { config := configDescW, layers := [layerDescW] }

def diffIDsW : List String := ["sha256:d1"]

/-- `layerDescW` after annotation with its diff ID. -/
def layerDescWAnn : Descriptor :=
  { layerDescW with annotations := some [(uncompressedKey, "sha256:d1")] }

def layersW : List Descriptor := [layerDescWAnn]

/-- Environment with a well-formed one-layer image behind the manifest and
rootfs readers. -/
def envOkW : Env :=
  { envBase with manifestOf := fun _ => .ok manifestW, rootFSOf := fun _ => .ok diffIDsW }

/-- Environment whose manifest reader serves the already-annotated layer
list, for the idempotence round trip. -/
def envAnnW : Env :=
  { envBase with
    manifestOf := fun _ => .ok { manifestW with layers := layersW },
    rootFSOf := fun _ => .ok diffIDsW }

/-- Environment with an empty manifest layer list against a one-entry rootfs
history: the integrity mismatch. -/
def envMisW : Env :=
  { envBase with
    manifestOf := fun _ => .ok { config := configDescW, layers := [] },
    rootFSOf := fun _ => .ok diffIDsW }

/-- Environment with a warm local store for `sha256:m1` and a remote
resolver that fails every call. -/
def envLocalW : Env :=
  { envBase with
    srcDigest := "sha256:m1", srcString := "docker.io/library/a@sha256:m1",
    storeInfo := fun dg => if dg = "sha256:m1" then .ok 7 else .error "not found",
    storeReaderAt := fun _ => .ok 3,
    detectMediaType := fun _ => .ok "application/vnd.oci.image.manifest.v1+json",
    resolverResolve := fun _ => .error "remote always fails" }

/-- Environment for a full successful remote pull of the one-layer image. -/
def envRun : Env :=
  { envBase with
    srcString := "docker.io/library/a:latest",
    resolverResolve := fun _ => .ok ("docker.io/library/a@sha256:m1", rootDescW),
    fetcher := fun _ => .ok 0,
    dispatch := fun _ => .ok [(configDescW.digest, configDescW), (rootDescW.digest, rootDescW)],
    manifestOf := fun _ => .ok manifestW, rootFSOf := fun _ => .ok diffIDsW }

/-- Environment whose remote side now succeeds, used to show a memoized
instance never re-issues the resolve call. -/
def envRemoteOk : Env :=
  { envBase with resolverResolve := fun _ => .ok ("docker.io/library/a@sha256:m1", rootDescW) }

/-- The empty walk state handed to `images.Dispatch`. -/
def walkInit : WalkState := { metadata := [], fetched := [] }

/-- The puller state after the first successful `PullManifests` call on
`envRun`. -/
def pullerAfterRun : PullerState :=
  { resolveOnceDone := true, resolveErr := none, desc := rootDescW,
    configDesc := configDescW, ref := "docker.io/library/a@sha256:m1",
    layers := layersW, nonlayers := [configDescW, rootDescW] }

/-- Resolved-success state with none of the walk results populated, for the
`ReaderAt` witness. -/
def pullerResolvedW : PullerState :=
  { pullerInit with
    resolveOnceDone := true, desc := rootDescW,
    ref := "docker.io/library/a@sha256:m1" }

/-- `envRun` with working fetcher-based reads and a warm store, to show
`ReaderAt` ignores the store side. -/
def envReadW : Env :=
  { envRun with fetcher := fun _ => .ok 1, fetcherReaderAt := fun f _ => .ok (f + 41) }

/-- `envReadW` with a different content store (warm `storeReaderAt`). -/
def envReadW' : Env :=
  { envReadW with storeInfo := fun _ => .ok 99, storeReaderAt := fun _ => .ok 5 }

/- Helper lemmas. -/

theorem setUncompressed_idem (d : Descriptor) (x : String) :
    setUncompressed (setUncompressed d x) x = setUncompressed d x := by
  cases h : d.annotations <;>
    simp [setUncompressed, h, insertKV_insertKV]

theorem zipWith_idem {α β : Type} (f : α → β → α) (hf : ∀ a b, f (f a b) b = f a b) :
    ∀ (as : List α) (bs : List β),
      List.zipWith f (List.zipWith f as bs) bs = List.zipWith f as bs := by
  intro as
  induction as with
  | nil => intro bs; simp
  | cons a as ih =>
    intro bs
    cases bs with
    | nil => simp
    | cons b bs => simp [hf, ih]

theorem tryLocalResolve_frame (env : Env) (s : PullerState) :
    (tryLocalResolve env s).1.resolveOnceDone = s.resolveOnceDone ∧
    (tryLocalResolve env s).1.resolveErr = s.resolveErr ∧
    (tryLocalResolve env s).1.layers = s.layers ∧
    (tryLocalResolve env s).1.nonlayers = s.nonlayers ∧
    (tryLocalResolve env s).1.configDesc = s.configDesc := by
  simp only [tryLocalResolve]
  repeat' split
  all_goals exact ⟨rfl, rfl, rfl, rfl, rfl⟩

theorem resolve_frame (env : Env) (s : PullerState) :
    (resolve env s).1.layers = s.layers ∧
    (resolve env s).1.nonlayers = s.nonlayers ∧
    (resolve env s).1.configDesc = s.configDesc := by
  have h := tryLocalResolve_frame env s
  simp only [resolve]
  repeat' split
  all_goals first
    | exact ⟨rfl, rfl, rfl⟩
    | exact ⟨h.2.2.1, h.2.2.2.1, h.2.2.2.2⟩

theorem resolve_snd_eq (env : Env) (s : PullerState) :
    (resolve env s).2 = (resolve env s).1.resolveErr := by
  simp only [resolve]
  repeat' split
  all_goals rfl

theorem resolve_done (env : Env) (s : PullerState) :
    (resolve env s).1.resolveOnceDone = true ∨
    ((resolve env s).1 = s ∧ s.resolveOnceDone = true) := by
  simp only [resolve]
  repeat' split
  all_goals first
    | (left; rfl)
    | (right; exact ⟨rfl, by assumption⟩)

theorem collectMetadata_nonlayers (md : List (String × Descriptor)) (s : PullerState) :
    (collectMetadata s md).nonlayers = s.nonlayers ++ md.map Prod.snd := by
  induction md generalizing s with
  | nil => simp [collectMetadata]
  | cons kv md ih =>
    by_cases h : isConfigType kv.2.mediaType = true <;>
      simp [collectMetadata, h, ih, List.append_assoc]

theorem collectMetadata_frame (md : List (String × Descriptor)) (s : PullerState) :
    (collectMetadata s md).desc = s.desc ∧
    (collectMetadata s md).ref = s.ref ∧
    (collectMetadata s md).layers = s.layers ∧
    (collectMetadata s md).resolveOnceDone = s.resolveOnceDone ∧
    (collectMetadata s md).resolveErr = s.resolveErr := by
  induction md generalizing s with
  | nil => simp [collectMetadata]
  | cons kv md ih =>
    by_cases h : isConfigType kv.2.mediaType = true <;>
      simp [collectMetadata, h, ih]

theorem collectMetadata_configDesc (md : List (String × Descriptor)) (s : PullerState) :
    (collectMetadata s md).configDesc = s.configDesc ∨
    ((collectMetadata s md).configDesc ∈ md.map Prod.snd ∧
      isConfigType (collectMetadata s md).configDesc.mediaType = true) := by
  induction md generalizing s with
  | nil => simp [collectMetadata]
  | cons kv md ih =>
    by_cases h : isConfigType kv.2.mediaType = true
    · have hstep : collectMetadata s (kv :: md) =
          collectMetadata { s with nonlayers := s.nonlayers ++ [kv.2], configDesc := kv.2 } md := by
        simp [collectMetadata, h]
      rw [hstep]
      simp only [List.map_cons]
      rcases ih { s with nonlayers := s.nonlayers ++ [kv.2], configDesc := kv.2 } with h1 | h1
      · right
        rw [h1]
        exact ⟨List.mem_cons_self _ _, h⟩
      · right
        exact ⟨List.mem_cons_of_mem _ h1.1, h1.2⟩
    · have hstep : collectMetadata s (kv :: md) =
          collectMetadata { s with nonlayers := s.nonlayers ++ [kv.2] } md := by
        simp [collectMetadata, h]
      rw [hstep]
      simp only [List.map_cons]
      rcases ih { s with nonlayers := s.nonlayers ++ [kv.2] } with h1 | h1
      · left
        rw [h1]
      · right
        exact ⟨List.mem_cons_of_mem _ h1.1, h1.2⟩

theorem dispatchWalk_frame (env : Env) (s : PullerState) :
    (dispatchWalk env s).1.layers = s.layers ∧
    (dispatchWalk env s).1.nonlayers = s.nonlayers ∧
    (dispatchWalk env s).1.configDesc = s.configDesc ∧
    (dispatchWalk env s).1.ref = s.ref ∧
    (dispatchWalk env s).1.resolveOnceDone = s.resolveOnceDone ∧
    (dispatchWalk env s).1.resolveErr = s.resolveErr := by
  simp only [dispatchWalk]
  repeat' split
  all_goals exact ⟨rfl, rfl, rfl, rfl, rfl, rfl⟩

theorem pullManifests_getLayers_err (env : Env) (s : PullerState)
    (hg : ∀ x ls, getLayers env x ≠ .ok ls) :
    (∀ pm, (PullManifests env s).2 ≠ .ok pm) ∧
    (s.layers = [] → (PullManifests env s).1.layers = []) := by
  rcases hres : resolve env s with ⟨s1, oe⟩
  have hlay1 : s1.layers = s.layers := by
    have h := (resolve_frame env s).1
    rw [hres] at h
    exact h
  cases oe with
  | some e =>
    have heq : PullManifests env s = (s1, .error e) := by
      simp [PullManifests, hres]
    rw [heq]
    exact ⟨(fun pm h => by cases h), (fun h0 => by rw [hlay1, h0])⟩
  | none =>
    rcases hfet : env.fetcher s1.ref with e | f
    · have heq : PullManifests env s = (s1, .error e) := by
        simp [PullManifests, hres, hfet]
      rw [heq]
      exact ⟨(fun pm h => by cases h), (fun h0 => by rw [hlay1, h0])⟩
    · rcases hw : dispatchWalk env s1 with ⟨s2, wr⟩
      have hlay2 : s2.layers = s1.layers := by
        have h := (dispatchWalk_frame env s1).1
        rw [hw] at h
        exact h
      cases wr with
      | error e =>
        have heq : PullManifests env s = (s2, .error e) := by
          simp [PullManifests, hres, hfet, hw]
        rw [heq]
        exact ⟨(fun pm h => by cases h), (fun h0 => by rw [hlay2, hlay1, h0])⟩
      | ok md =>
        rcases hgl : getLayers env (collectMetadata s2 md).desc with e | ls
        · have heq : PullManifests env s =
              ({ collectMetadata s2 md with layers := [] }, .error e) := by
            simp [PullManifests, hres, hfet, hw, hgl]
          rw [heq]
          exact ⟨(fun pm h => by cases h), (fun _ => rfl)⟩
        · exact absurd hgl (hg _ ls)

/-- C1: whenever the rootfs diff-ID history length differs from the
manifest's layer count, `getLayers` fails with the integrity error whose
message embeds both compared sequences, and `PullManifests` (under any
resolution outcome) returns no result and leaves no layer list behind. -/
theorem getLayers_mismatch_fails (env : Env) (d : Descriptor) (m : Manifest)
    (ds : List String) (s : PullerState)
    (hm : ∀ x, env.manifestOf x = .ok m) (hr : ∀ x, env.rootFSOf x = .ok ds)
    (hlen : ds.length ≠ m.layers.length) (hlay : s.layers = []) :
    getLayers env d = .error (mismatchMsg ds m.layers) ∧
    (∃ pre mid, mismatchMsg ds m.layers =
      pre ++ goFormatStrings ds ++ mid ++ goFormatDescriptors m.layers) ∧
    (∀ pm, (PullManifests env s).2 ≠ .ok pm) ∧
    (PullManifests env s).1.layers = [] := by
  have hgl : ∀ x ls, getLayers env x ≠ .ok ls := by
    intro x ls hx
    simp only [getLayers, hm x, hr x, if_pos hlen] at hx
    cases hx
  have hmain := pullManifests_getLayers_err env s hgl
  refine ⟨?_, ⟨"mismatched image rootfs and manifest layers ", " ", rfl⟩,
    hmain.1, hmain.2 hlay⟩
  simp only [getLayers, hm d, hr d, if_pos hlen]

theorem getLayers_mismatch_fails_witness :
    getLayers envMisW Descriptor.empty = .error (mismatchMsg diffIDsW []) ∧
    (PullManifests envMisW pullerInit).1.layers = [] := by
  have h := getLayers_mismatch_fails envMisW Descriptor.empty
    { config := configDescW, layers := [] } diffIDsW pullerInit
    (fun _ => rfl) (fun _ => rfl) (by decide) rfl
  exact ⟨h.1, h.2.2.2⟩

/-- C2: when `getLayers` succeeds, the result has exactly the manifest's
layer descriptors in manifest order (digest, media type and size preserved
position by position), and every returned descriptor carries a non-nil
annotations map whose uncompressed-identity entry is the matching diff ID. -/
theorem getLayers_success_annotated (env : Env) (d : Descriptor) (m : Manifest)
    (ds : List String) (ls : List Descriptor)
    (hm : env.manifestOf d = .ok m) (hr : env.rootFSOf d = .ok ds)
    (h : getLayers env d = .ok ls) :
    ls.length = m.layers.length ∧ ds.length = m.layers.length ∧
    ∀ i, i < ls.length →
      (ls.getD i Descriptor.empty).digest = (m.layers.getD i Descriptor.empty).digest ∧
      (ls.getD i Descriptor.empty).mediaType = (m.layers.getD i Descriptor.empty).mediaType ∧
      (ls.getD i Descriptor.empty).size = (m.layers.getD i Descriptor.empty).size ∧
      (ls.getD i Descriptor.empty).annotations.isSome = true ∧
      lookupKV ((ls.getD i Descriptor.empty).annotations.getD []) uncompressedKey
        = some (ds.getD i "") := by
  simp only [getLayers, hm, hr] at h
  split at h
  · cases h
  · rename_i hlen
    have hlen' : ds.length = m.layers.length := by
      by_contra hc
      exact hlen hc
    injection h with hzip
    subst hzip
    refine ⟨by rw [List.length_zipWith, hlen', min_self], hlen', ?_⟩
    intro i hi
    rw [List.length_zipWith, hlen', min_self] at hi
    have hi2 : i < ds.length := by rw [hlen']; exact hi
    rw [zipWith_getD setUncompressed m.layers ds i Descriptor.empty "" Descriptor.empty hi hi2]
    cases hann : (m.layers.getD i Descriptor.empty).annotations <;>
      simp [setUncompressed, hann, lookupKV_insertKV]

theorem getLayers_success_annotated_witness :
    getLayers envOkW Descriptor.empty = .ok layersW ∧
    lookupKV ((layersW.getD 0 Descriptor.empty).annotations.getD []) uncompressedKey
      = some "sha256:d1" := by
  refine ⟨by rfl, ?_⟩
  have h := (getLayers_success_annotated envOkW Descriptor.empty manifestW diffIDsW layersW
    rfl rfl (by rfl)).2.2 0 (by decide)
  exact h.2.2.2.2

/-- C9: layer reconciliation is idempotent on annotations: feeding the
annotated layer sequence back through `getLayers` against the same rootfs
history returns the identical sequence (each uncompressed-identity entry is
overwritten with the same diff ID). -/
theorem getLayers_idempotent (env env' : Env) (d d' : Descriptor) (m : Manifest)
    (ds : List String) (ls : List Descriptor)
    (hm : env.manifestOf d = .ok m) (hr : env.rootFSOf d = .ok ds)
    (h : getLayers env d = .ok ls)
    (hm' : env'.manifestOf d' = .ok { m with layers := ls })
    (hr' : env'.rootFSOf d' = .ok ds) :
    getLayers env' d' = .ok ls := by
  simp only [getLayers, hm, hr] at h
  split at h
  · cases h
  · rename_i hlen
    have hlen' : ds.length = m.layers.length := by
      by_contra hc
      exact hlen hc
    injection h with hzip
    have hlslen : ls.length = ds.length := by
      rw [← hzip, List.length_zipWith, hlen', min_self]
    have hstable : List.zipWith setUncompressed ls ds = ls := by
      rw [← hzip, zipWith_idem setUncompressed setUncompressed_idem]
    simp only [getLayers, hm', hr']
    rw [if_neg (fun hc => hc hlslen.symm), hstable]

theorem getLayers_idempotent_witness :
    getLayers envAnnW Descriptor.empty = .ok layersW :=
  getLayers_idempotent envOkW envAnnW Descriptor.empty Descriptor.empty
    manifestW diffIDsW layersW rfl rfl (by rfl) rfl rfl

/-- C4: the `sync.Once` body runs at most once: the first `resolve` call
marks the instance done, and every later call — under any environment, in
particular one whose remote resolver would answer differently — returns the
identical memoized state and outcome without re-invoking the resolver, so a
first-attempt failure is permanent. -/
theorem resolve_memoizes_once (env : Env) (s : PullerState)
    (h : s.resolveOnceDone = false) :
    (resolve env s).1.resolveOnceDone = true ∧
    ∀ env', resolve env' (resolve env s).1 = ((resolve env s).1, (resolve env s).2) := by
  have hdone : (resolve env s).1.resolveOnceDone = true := by
    rcases resolve_done env s with h1 | h1
    · exact h1
    · rw [h] at h1
      exact absurd h1.2 (by simp)
  refine ⟨hdone, fun env' => ?_⟩
  rw [resolve_snd_eq env s]
  generalize hx : (resolve env s).1 = x at hdone ⊢
  simp [resolve, hdone]

theorem resolve_memoizes_once_witness :
    resolve envRemoteOk (resolve envBase pullerInit).1 =
      ((resolve envBase pullerInit).1, (resolve envBase pullerInit).2) :=
  (resolve_memoizes_once envBase pullerInit rfl).2 envRemoteOk

/-- C5: when the source reference carries a digest whose blob the store
holds with a sniffable manifest media type, `resolve` succeeds through the
local fast path — root descriptor gets that digest, the store-reported size
and the sniffed media type — for every remote resolver whatsoever (the
resolver field of `env` is unconstrained), so the remote side is never
contacted. -/
theorem resolve_local_fast_path (env : Env) (s : PullerState) (sz : Int)
    (ra : Nat) (mt : String)
    (h0 : s.resolveOnceDone = false) (h1 : s.resolveErr = none)
    (h2 : ¬ env.srcDigest = "")
    (h3 : env.storeInfo env.srcDigest = .ok sz)
    (h4 : env.storeReaderAt
      { digest := env.srcDigest, mediaType := "", size := sz, annotations := none } = .ok ra)
    (h5 : env.detectMediaType ra = .ok mt) :
    resolve env s =
      ({ s with
          resolveOnceDone := true, ref := env.srcString,
          desc := { digest := env.srcDigest, mediaType := mt, size := sz,
                    annotations := none } }, none) := by
  simp only [resolve, tryLocalResolve, h0, h2, h3, h4, h5, h1,
    Bool.false_eq_true, if_false, if_neg, not_false_iff]

theorem resolve_local_fast_path_witness :
    resolve envLocalW pullerInit =
      ({ pullerInit with
          resolveOnceDone := true, ref := "docker.io/library/a@sha256:m1",
          desc := { digest := "sha256:m1",
                    mediaType := "application/vnd.oci.image.manifest.v1+json",
                    size := 7, annotations := none } }, none) :=
  resolve_local_fast_path envLocalW pullerInit 7 3
    "application/vnd.oci.image.manifest.v1+json" rfl rfl (by decide) rfl rfl rfl

/-- C6: whenever the local fast path fails for any reason, `resolve` falls
through to the remote resolver and the local error is never surfaced: the
memoized outcome is exactly the remote result — its error on remote
failure, its ref and descriptor with a `none` error on remote success. -/
theorem resolve_local_failure_falls_back (env : Env) (s : PullerState)
    (h0 : s.resolveOnceDone = false) (h1 : s.resolveErr = none)
    (hl : (tryLocalResolve env s).2 ≠ none) :
    (∀ e, env.resolverResolve env.srcString = .error e →
      resolve env s = ({ (tryLocalResolve env s).1 with
        resolveOnceDone := true, resolveErr := some e }, some e)) ∧
    (∀ r d, env.resolverResolve env.srcString = .ok (r, d) →
      resolve env s = ({ (tryLocalResolve env s).1 with
        resolveOnceDone := true, desc := d, ref := r }, none)) := by
  constructor
  · intro e he
    cases hloc : (tryLocalResolve env s).2 with
    | none => exact absurd hloc hl
    | some x =>
      simp only [resolve, h0, Bool.false_eq_true, if_false, hloc, he]
  · intro r d hre
    cases hloc : (tryLocalResolve env s).2 with
    | none => exact absurd hloc hl
    | some x =>
      have hfr := (tryLocalResolve_frame env s).2.1
      simp only [resolve, h0, Bool.false_eq_true, if_false, hloc, hre]
      rw [Prod.mk.injEq]
      exact ⟨rfl, by rw [hfr, h1]⟩

theorem resolve_local_failure_falls_back_witness :
    resolve envBase pullerInit =
      ({ pullerInit with resolveOnceDone := true, resolveErr := some "unset" },
        some "unset") :=
  (resolve_local_failure_falls_back envBase pullerInit rfl rfl (by decide)).1 "unset" rfl

/-- C3: on the normal-path handler chain, a descriptor with a recognized
layer media type is skipped outright — walk state untouched (not fetched,
not recorded) and the skip signal returned, so dispatch does not descend —
while a descriptor of any other media type is recorded in the shared
metadata map under its digest and processing continues past the filter
(the chain never yields the skip signal for it). -/
theorem normalHandlers_layer_policy (env : Env) (st : WalkState) (d : Descriptor) :
    (isLayerType d.mediaType = true →
      normalHandlers env st d = (st, .error .skipDesc)) ∧
    (isLayerType d.mediaType = false →
      (normalHandlers env st d).1.metadata = insertKV st.metadata d.digest d ∧
      (normalHandlers env st d).2 ≠ .error .skipDesc) := by
  constructor
  · intro hl
    simp [normalHandlers, handlersSeq, filterLayerBlobs, hl]
  · intro hl
    rcases hf : env.fetchBlob d with e | u
    · simp [normalHandlers, handlersSeq, filterLayerBlobs, fetchHandler, hl, hf]
    · rcases hc : env.children d with e | ch <;>
        simp [normalHandlers, handlersSeq, filterLayerBlobs, fetchHandler,
          childrenHandler, dslHandler, hl, hf, hc]

theorem normalHandlers_layer_policy_witness :
    normalHandlers envBase walkInit layerDescW = (walkInit, .error .skipDesc) ∧
    (normalHandlers envBase walkInit configDescW).1.metadata =
      insertKV walkInit.metadata configDescW.digest configDescW :=
  ⟨(normalHandlers_layer_policy envBase walkInit layerDescW).1 (by decide),
   ((normalHandlers_layer_policy envBase walkInit configDescW).2 (by decide)).1⟩

/-- C7 counterexample: on a concrete successful pull, the descriptor
returned as the config also appears in the returned non-layer sequence —
the metadata mapping is not split into two disjoint parts, refuting the
claim that the config does not appear among the non-layers. -/
theorem pullManifests_config_in_nonlayers_cex :
    (PullManifests envRun pullerInit).2 =
      .ok { ref := "docker.io/library/a@sha256:m1", mainManifestDesc := rootDescW,
            configDesc := configDescW, nonlayers := [configDescW, rootDescW],
            remoteDescriptors := layersW } ∧
    configDescW ∈ [configDescW, rootDescW] :=
  ⟨by rfl, by simp⟩

/-- C7 amended: the metadata loop appends every collected descriptor — the
config included — to the non-layer sequence, and additionally selects as
the config descriptor one of the collected entries bearing a recognized
config media type (when any is selected at all); the selected config
therefore also appears in the non-layer sequence. -/
theorem collectMetadata_partition_amended (md : List (String × Descriptor)) (s : PullerState) :
    (collectMetadata s md).nonlayers = s.nonlayers ++ md.map Prod.snd ∧
    ((collectMetadata s md).configDesc = s.configDesc ∨
      ((collectMetadata s md).configDesc ∈ md.map Prod.snd ∧
        isConfigType (collectMetadata s md).configDesc.mediaType = true)) ∧
    ((collectMetadata s md).configDesc = s.configDesc ∨
      (collectMetadata s md).configDesc ∈ (collectMetadata s md).nonlayers) := by
  refine ⟨collectMetadata_nonlayers md s, collectMetadata_configDesc md s, ?_⟩
  rcases collectMetadata_configDesc md s with h | h
  · left
    exact h
  · right
    rw [collectMetadata_nonlayers md s]
    exact List.mem_append_right _ h.1

/-- C8 counterexample: a second `PullManifests` call on the same instance
does not return the first call's non-layer sequence — the walk re-runs and
the re-collected metadata is appended to the stored list, duplicating it. -/
theorem pullManifests_second_call_duplicates_cex :
    (PullManifests envRun (PullManifests envRun pullerInit).1).2 =
      .ok { ref := "docker.io/library/a@sha256:m1", mainManifestDesc := rootDescW,
            configDesc := configDescW,
            nonlayers := [configDescW, rootDescW, configDescW, rootDescW],
            remoteDescriptors := layersW } ∧
    [configDescW, rootDescW, configDescW, rootDescW] ≠ [configDescW, rootDescW] :=
  ⟨by rfl, by decide⟩

/-- C8 amended: only the resolution outcome is memoized.  A `PullManifests`
call on an already-resolved instance reuses the memoized ref and root
descriptor without re-resolving, but re-runs the walk and the layer
reconciliation: the re-collected metadata is appended to the instance's
stored non-layer list (so a second call returns the first call's non-layer
entries followed by the re-collected ones), and the layer list is
recomputed. -/
theorem pullManifests_rerun_appends (env : Env) (s : PullerState) (f : Nat)
    (md : List (String × Descriptor)) (ls : List Descriptor)
    (hdone : s.resolveOnceDone = true) (herr : s.resolveErr = none)
    (hmt : ¬ s.desc.mediaType = MediaTypeDockerSchema1Manifest)
    (hf : env.fetcher s.ref = .ok f)
    (hd : env.dispatch s.desc = .ok md)
    (hg : getLayers env s.desc = .ok ls) :
    ∃ pm, (PullManifests env s).2 = .ok pm ∧
      pm.ref = s.ref ∧ pm.mainManifestDesc = s.desc ∧
      pm.nonlayers = s.nonlayers ++ md.map Prod.snd ∧
      pm.remoteDescriptors = ls := by
  have hres : resolve env s = (s, none) := by
    simp [resolve, hdone, herr]
  have hwalk : dispatchWalk env s = (s, .ok md) := by
    simp [dispatchWalk, hmt, hd]
  have hcd := collectMetadata_frame md s
  have hgl : getLayers env (collectMetadata s md).desc = .ok ls := by
    rw [hcd.1]
    exact hg
  refine ⟨{ ref := (collectMetadata s md).ref,
            mainManifestDesc := (collectMetadata s md).desc,
            configDesc := (collectMetadata s md).configDesc,
            nonlayers := (collectMetadata s md).nonlayers,
            remoteDescriptors := ls }, ?_, hcd.2.1, hcd.1, collectMetadata_nonlayers md s, rfl⟩
  simp only [PullManifests, hres, hf, hwalk, hgl]

theorem pullManifests_rerun_appends_witness :
    ∃ pm, (PullManifests envRun pullerAfterRun).2 = .ok pm ∧
      pm.ref = pullerAfterRun.ref ∧ pm.mainManifestDesc = pullerAfterRun.desc ∧
      pm.nonlayers = pullerAfterRun.nonlayers ++
        ([(configDescW.digest, configDescW), (rootDescW.digest, rootDescW)].map Prod.snd) ∧
      pm.remoteDescriptors = layersW :=
  pullManifests_rerun_appends envRun pullerAfterRun 0
    [(configDescW.digest, configDescW), (rootDescW.digest, rootDescW)] layersW
    rfl rfl (by decide) rfl rfl (by rfl)

/-- C10: `ReaderAt` first resolves the reference — returning the memoized
resolution error when resolution failed — and on success serves the read
purely through the fetcher obtained from the resolver for the memoized
ref: the outcome is computed from the fetcher fields alone, and two
environments agreeing on those fields but with arbitrarily different
content stores give the same result, so the blob is never read from the
local store. -/
theorem readerAt_fetcher_only (env env' : Env) (s : PullerState) (d : Descriptor)
    (hdone : s.resolveOnceDone = true) :
    (∀ e, s.resolveErr = some e → ReaderAt env s d = (s, .error e)) ∧
    (s.resolveErr = none →
      ReaderAt env s d = (s, match env.fetcher s.ref with
        | .error e => .error e
        | .ok f => env.fetcherReaderAt f d)) ∧
    (env.fetcher = env'.fetcher → env.fetcherReaderAt = env'.fetcherReaderAt →
      ReaderAt env s d = ReaderAt env' s d) := by
  have hres : ∀ (e0 : Env), resolve e0 s = (s, s.resolveErr) := by
    intro e0
    simp [resolve, hdone]
  refine ⟨?_, ?_, ?_⟩
  · intro e he
    simp only [ReaderAt, hres, he]
  · intro he
    simp only [ReaderAt, hres, he]
    cases env.fetcher s.ref <;> rfl
  · intro h1 h2
    simp only [ReaderAt, hres, h1, h2]

theorem readerAt_fetcher_only_witness :
    ReaderAt envReadW pullerResolvedW layerDescW = (pullerResolvedW, .ok 42) ∧
    ReaderAt envReadW pullerResolvedW layerDescW =
      ReaderAt envReadW' pullerResolvedW layerDescW := by
  have h := readerAt_fetcher_only envReadW envReadW' pullerResolvedW layerDescW rfl
  exact ⟨(h.2.1 rfl).trans (by rfl), h.2.2 rfl rfl⟩

end Pull
